import Mathlib

/-!
Shallow embedding of the eureka idea-capture CLI's workflow engine
(src/src/lib.rs, `impl Eureka`).  The engine is modelled as a state-passing
interpreter: an `Env` fixes the behaviour of the injected external
capabilities for one run, a state `St` carries the config-store contents,
the remaining scripted input lines, the lazily constructed git session and
the trace of capability calls, and each Rust method becomes a Lean function
`St → St × Outcome`.
-/

/-- The two config keys (src `types::ConfigFile`: `Repo`, `Branch`). -/
inductive ConfigFile where
  | Repo
  | Branch
deriving DecidableEq, Repr

/-- One observable capability call made by the engine during a run. -/
inductive Event where
  | printed (s : String)
  | banner
  | inputHeader (s : String)
  | readLine (s : String)
  | fileRm (k : ConfigFile)
  | configWrite (k : ConfigFile) (v : String)
  | configDirCreate
  | openPager (path : String)
  | openEditor (path : String)
  | gitCheckout (branch : String)
  | gitAdd
  | gitCommit (msg : String)
  | gitPush (branch : String)
deriving DecidableEq, Repr

/-- The distinct abnormal-termination sites of the engine.  Each Rust
`panic!` / `.expect` / `.unwrap` call site gets its own constructor;
`editorFailed` carries the propagated editor error (`panic!(e)`). -/
inductive FatalMsg where
  | repoConfigMissing
  | branchConfigMissing
  | repoUnwrapErr
  | gitUnwrapNone
  | checkoutFailed
  | addOrCommitFailed
  | pushFailed
  | editorFailed (e : String)
deriving DecidableEq, Repr

/-- Result of a run: normal completion, a propagated `io::Result` error,
an abnormal termination, or blocking forever on exhausted scripted input. -/
inductive Outcome where
  | ok
  | ioErr (msg : String)
  | fatal (msg : FatalMsg)
  | blocked
deriving DecidableEq, Repr

/-- Modelled from the spec: behaviour of the external capabilities
(ConfigStore delete/write and storage location, ProgramLauncher editor and
pager, GitCapability step results) for one run; their implementations
(`file_handler`, `program_access`, `git` modules) are outside src/ and are
specified only at their interface boundary.  `editorErr p = some e` means
opening the editor on `p` fails with error `e`; `none` means success. -/
structure Env where
  rmOk : ConfigFile → Bool
  writeOk : ConfigFile → Bool
  dirExists : Bool
  dirCreateOk : Bool
  editorErr : String → Option String
  pagerOk : String → Bool
  checkoutOk : Bool
  addOk : Bool
  commitOk : Bool
  pushOk : Bool

/-- Mutable state of one run: the config store contents (`repo`, `branch`:
`none` models a key whose read fails with NotFound), the scripted input
lines not yet consumed, the count of reads performed, the lazily
constructed git session (`Eureka.git`, holding the repo path), and the
trace of capability calls so far. -/
structure St where
  repo : Option String
  branch : Option String
  inputs : List String
  reads : Nat
  git : Option String
  trace : List Event
deriving DecidableEq, Repr

/-- The three CLI flags (src `EurekaOptions`). -/
structure EurekaOptions where
  clear_repo : Bool
  clear_branch : Bool
  view : Bool
deriving DecidableEq, Repr

/-- Append one capability-call event to the trace. -/
def emit (st : St) (e : Event) : St :=
  { st with trace := st.trace ++ [e] }

/-- Modelled from the spec: ConfigStore `read(key) -> value or NotFound`. -/
def config_read (st : St) (k : ConfigFile) : Option String :=
  match k with
  | .Repo => st.repo
  | .Branch => st.branch

/-- Modelled from the spec: ConfigStore `delete(key)`; on success the key
is removed, on failure the store is unchanged and an I/O error propagates. -/
def file_rm (env : Env) (st : St) (k : ConfigFile) : St × Outcome :=
  if env.rmOk k then
    (emit (match k with
           | ConfigFile.Repo => { st with repo := none }
           | ConfigFile.Branch => { st with branch := none })
      (Event.fileRm k), Outcome.ok)
  else (st, Outcome.ioErr "could not remove config file")

/-- Modelled from the spec: ConfigStore `write(key, value)`. -/
def config_write (env : Env) (st : St) (k : ConfigFile) (v : String) :
    St × Outcome :=
  if env.writeOk k then
    (emit (match k with
           | ConfigFile.Repo => { st with repo := some v }
           | ConfigFile.Branch => { st with branch := some v })
      (Event.configWrite k v), Outcome.ok)
  else (st, Outcome.ioErr "could not write config file")

/-- Modelled from the spec: InputReader `readLine()`; consumes the next
scripted line, or `none` when the script is exhausted (the real process
would block forever on stdin). -/
def read_input (st : St) : Option (String × St) :=
  match st.inputs with
  | [] => none
  | s :: rest =>
      some (s, emit { st with inputs := rest, reads := st.reads + 1 }
        (Event.readLine s))

/-- Modelled from the spec: ConfigStore `createStorageLocation()`. -/
def config_dir_create (env : Env) (st : St) : St × Outcome :=
  if env.dirCreateOk then (emit st Event.configDirCreate, Outcome.ok)
  else (st, Outcome.ioErr "could not create config dir")

/-- src lib.rs `clear_repo`: `config_read(Repo).and_then(|_| file_rm(Repo))`. -/
def clear_repo (env : Env) (st : St) : St × Outcome :=
  match config_read st ConfigFile.Repo with
  | none => (st, Outcome.ioErr "config value not found")
  | some _ => file_rm env st ConfigFile.Repo

/-- src lib.rs `clear_branch`: `config_read(Branch).and_then(|_| file_rm(Branch))`. -/
def clear_branch (env : Env) (st : St) : St × Outcome :=
  match config_read st ConfigFile.Branch with
  | none => (st, Outcome.ioErr "config value not found")
  | some _ => file_rm env st ConfigFile.Branch

/-- src lib.rs `open_idea_file`: read repo path (propagating failure), open
the pager on `<repo>/README.md`, propagating its result. -/
def open_idea_file (env : Env) (st : St) : St × Outcome :=
  match config_read st ConfigFile.Repo with
  | none => (st, Outcome.ioErr "config value not found")
  | some repo_path =>
      let path := repo_path ++ "/README.md"
      (emit st (Event.openPager path),
       if env.pagerOk path then Outcome.ok else Outcome.ioErr "pager failed")

/-- src lib.rs `init_git`: re-read the repo path, panicking with
"Repo config is missing (should never end up here" when absent, and store
the git session. -/
def init_git (st : St) : St × Outcome :=
  match config_read st ConfigFile.Repo with
  | none => (st, Outcome.fatal FatalMsg.repoConfigMissing)
  | some repo_path => ({ st with git := some repo_path }, Outcome.ok)

/-- src lib.rs `git_add_commit_push`: unwrap the git session, print the
status line, re-read the branch name (panicking when absent), then
checkout, add, commit (add-and-commit chained with `and_then`, so a failed
add skips the commit call), and push, each step's failure terminating
abnormally via `.expect`. -/
def git_add_commit_push (env : Env) (st : St) (commit_subject : String) :
    St × Outcome :=
  match st.git with
  | none => (st, Outcome.fatal FatalMsg.gitUnwrapNone)
  | some _ =>
    let st := emit st (Event.printed "Adding and committing your new idea..")
    match config_read st ConfigFile.Branch with
    | none => (st, Outcome.fatal FatalMsg.branchConfigMissing)
    | some branch_name =>
      let st := emit st (Event.gitCheckout branch_name)
      if !env.checkoutOk then (st, Outcome.fatal FatalMsg.checkoutFailed)
      else
        let st := emit st Event.gitAdd
        if !env.addOk then (st, Outcome.fatal FatalMsg.addOrCommitFailed)
        else
          let st := emit st (Event.gitCommit commit_subject)
          if !env.commitOk then (st, Outcome.fatal FatalMsg.addOrCommitFailed)
          else
            let st := emit st (Event.printed "Added and committed!")
            let st := emit st (Event.printed "Pushing your new idea..")
            let st := emit st (Event.gitPush branch_name)
            if !env.pushOk then (st, Outcome.fatal FatalMsg.pushFailed)
            else (emit st (Event.printed "Pushed!"), Outcome.ok)

/-- The repo-path prompt loop of src lib.rs `setup_repo_path`
(`while input_repo_path.is_empty() { input_header; read_input }`), run
against the remaining scripted inputs.  Returns the emitted prompt/read
events, the number of reads performed, and the non-empty line found with
the inputs left after it (`none` when the script ran out while looping). -/
def repo_prompt_loop : List String → List Event × Nat × Option (String × List String)
  | [] => ([Event.inputHeader "Absolute path to your idea repo"], 0, none)
  | s :: rest =>
    if s = "" then
      match repo_prompt_loop rest with
      | (evs, n, r) =>
          (Event.inputHeader "Absolute path to your idea repo" ::
            Event.readLine s :: evs, n + 1, r)
    else ([Event.inputHeader "Absolute path to your idea repo",
           Event.readLine s], 1, some (s, rest))

/-- src lib.rs `setup_repo_path`: loop prompting until a non-empty line is
read, then write it to config under Repo. -/
def setup_repo_path (env : Env) (st : St) : St × Outcome :=
  match repo_prompt_loop st.inputs with
  | (evs, n, none) =>
      ({ st with
          inputs := [],
          reads := st.reads + n,
          trace := st.trace ++ evs }, Outcome.blocked)
  | (evs, n, some (v, rest)) =>
      config_write env
        { st with
            inputs := rest,
            reads := st.reads + n,
            trace := st.trace ++ evs } ConfigFile.Repo v

/-- src lib.rs `setup_branch_name`: prompt once, read one line, substitute
"master" for an empty line, write to config under Branch. -/
def setup_branch_name (env : Env) (st : St) : St × Outcome :=
  let st := emit st (Event.inputHeader "Name of branch (default: master)")
  match read_input st with
  | none => (st, Outcome.blocked)
  | some (s, st) =>
      let branch_name := if s = "" then "master" else s
      config_write env st ConfigFile.Branch branch_name

/-- src lib.rs `is_config_missing`: true iff reading either key fails. -/
def is_config_missing (st : St) : Bool :=
  (config_read st ConfigFile.Repo).isNone ||
    (config_read st ConfigFile.Branch).isNone

/-- src lib.rs `ask_for_idea`: prompt for the idea summary, read one line,
unwrap the repo path, build the README path, lazily construct the git
session, open the editor on the README and on success run the git
synchronization; on editor failure `panic!(e)`. -/
def ask_for_idea (env : Env) (st : St) : St × Outcome :=
  let st := emit st (Event.inputHeader ">> Idea summary")
  match read_input st with
  | none => (st, Outcome.blocked)
  | some (idea_summary, st) =>
    match config_read st ConfigFile.Repo with
    | none => (st, Outcome.fatal FatalMsg.repoUnwrapErr)
    | some repo_path =>
      let readme_path := repo_path ++ "/README.md"
      match init_git st with
      | (st, Outcome.ok) =>
        let st := emit st (Event.openEditor readme_path)
        match env.editorErr readme_path with
        | none => git_add_commit_push env st idea_summary
        | some e => (st, Outcome.fatal (FatalMsg.editorFailed e))
      | r => r

/-- src lib.rs `run`: clears first (each `?`-propagated, then return), then
view (propagated, not exclusive), then the setup-or-capture dispatch on
`is_config_missing`. -/
def run (env : Env) (opts : EurekaOptions) (st : St) : St × Outcome :=
  if opts.clear_repo || opts.clear_branch then
    match (if opts.clear_repo then clear_repo env st else (st, Outcome.ok)) with
    | (st, Outcome.ok) =>
      (match (if opts.clear_branch then clear_branch env st else (st, Outcome.ok)) with
       | (st, Outcome.ok) => (st, Outcome.ok)
       | r => r)
    | r => r
  else
    match (if opts.view then open_idea_file env st else (st, Outcome.ok)) with
    | (st, Outcome.ok) =>
      if is_config_missing st then
        match (if !env.dirExists then config_dir_create env st
               else (st, Outcome.ok)) with
        | (st, Outcome.ok) =>
          let st := emit st Event.banner
          match (if (config_read st ConfigFile.Repo).isNone
                 then setup_repo_path env st else (st, Outcome.ok)) with
          | (st, Outcome.ok) =>
            (match (if (config_read st ConfigFile.Branch).isNone
                    then setup_branch_name env st else (st, Outcome.ok)) with
             | (st, Outcome.ok) =>
                 (emit st (Event.printed "First time setup complete. Happy ideation!"),
                  Outcome.ok)
             | r => r)
          | r => r
        | r => r
      else ask_for_idea env st
    | r => r

/-- Whether an event is an invocation of one of the four GitCapability
operations (checkoutBranch, stageAll, commit, push). -/
def isGitOp : Event → Bool
  | Event.gitCheckout _ => true
  | Event.gitAdd => true
  | Event.gitCommit _ => true
  | Event.gitPush _ => true
  | _ => false

/-- The subsequence of git-operation invocations in a trace, in order. -/
def gitOps (tr : List Event) : List Event := tr.filter isGitOp

/-! ## Fixtures for concrete witnesses -/

/-- An environment in which every capability succeeds. -/
def envAllOk : Env :=
  ⟨fun _ => true, fun _ => true, true, true, fun _ => none, fun _ => true,
   true, true, true, true⟩

/-- A fully configured state about to capture the idea "add feature". -/
def stCapture : St :=
  { repo := some "/repo", branch := some "main", inputs := ["add feature"],
    reads := 0, git := none, trace := [] }

/-! ## Claims -/

/-- Claim C1: with config Repo = "/repo" and Branch = "main", no clear or
view flag, the scripted input "add feature", the editor open succeeding and
the checkout/stage/commit steps succeeding, the run invokes exactly
checkout("main"), stageAll(), commit("add feature"), push("main"), in that
order, each exactly once (push is invoked whether or not it succeeds). -/
theorem claim_C1 (env : Env)
    (hed : env.editorErr "/repo/README.md" = none)
    (hco : env.checkoutOk = true) (had : env.addOk = true)
    (hcm : env.commitOk = true) :
    gitOps (run env ⟨false, false, false⟩ stCapture).fst.trace =
      [Event.gitCheckout "main", Event.gitAdd,
       Event.gitCommit "add feature", Event.gitPush "main"] := by
  cases hpu : env.pushOk <;>
    simp [run, is_config_missing, config_read, ask_for_idea, read_input,
      emit, init_git, git_add_commit_push, stCapture, hed, hco, had, hcm,
      hpu, gitOps, isGitOp]

/-- Witness for C1 at the all-succeeding environment. -/
theorem claim_C1_witness :
    envAllOk.editorErr "/repo/README.md" = none ∧
    envAllOk.checkoutOk = true ∧ envAllOk.addOk = true ∧
    envAllOk.commitOk = true ∧
    gitOps (run envAllOk ⟨false, false, false⟩ stCapture).fst.trace =
      [Event.gitCheckout "main", Event.gitAdd,
       Event.gitCommit "add feature", Event.gitPush "main"] :=
  ⟨rfl, rfl, rfl, rfl, claim_C1 envAllOk rfl rfl rfl rfl⟩

/-- Claim C5: whenever the Repo key is absent and clear_repo is set, run
returns the not-found error with the state unchanged (no key deleted, no
capability called). -/
theorem claim_C5 (env : Env) (opts : EurekaOptions) (st : St)
    (hcr : opts.clear_repo = true) (hr : st.repo = none) :
    run env opts st = (st, Outcome.ioErr "config value not found") := by
  simp [run, hcr, clear_repo, config_read, hr]

/-- Witness for C5: clearing an unconfigured repo path errors, deletes
nothing. -/
theorem claim_C5_witness :
    (⟨true, false, false⟩ : EurekaOptions).clear_repo = true ∧
    ({ repo := none, branch := some "main", inputs := [], reads := 0,
       git := none, trace := [] } : St).repo = none ∧
    run envAllOk ⟨true, false, false⟩
      { repo := none, branch := some "main", inputs := [], reads := 0,
        git := none, trace := [] } =
      ({ repo := none, branch := some "main", inputs := [], reads := 0,
         git := none, trace := [] }, Outcome.ioErr "config value not found") :=
  ⟨rfl, rfl, claim_C5 envAllOk ⟨true, false, false⟩ _ rfl rfl⟩

/-- Claim C6: with the Repo key present, its removal succeeding and only
clear_repo set (view arbitrary), run deletes exactly the Repo key — the
final state differs from the initial one only by Repo becoming absent and
the single fileRm(Repo) trace entry — returns Ok immediately, and the
Branch key is untouched. -/
theorem claim_C6 (env : Env) (vw : Bool) (st : St) (r : String)
    (hr : st.repo = some r) (hrm : env.rmOk ConfigFile.Repo = true) :
    run env ⟨true, false, vw⟩ st =
      ({ st with
          repo := none,
          trace := st.trace ++ [Event.fileRm ConfigFile.Repo] },
       Outcome.ok) ∧
    (run env ⟨true, false, vw⟩ st).fst.branch = st.branch := by
  refine ⟨?_, ?_⟩ <;>
    simp [run, clear_repo, config_read, hr, file_rm, hrm, emit]

/-- Witness for C6 on a fully configured state. -/
theorem claim_C6_witness :
    stCapture.repo = some "/repo" ∧ envAllOk.rmOk ConfigFile.Repo = true ∧
    run envAllOk ⟨true, false, true⟩ stCapture =
      ({ stCapture with
          repo := none,
          trace := stCapture.trace ++ [Event.fileRm ConfigFile.Repo] },
       Outcome.ok) ∧
    (run envAllOk ⟨true, false, true⟩ stCapture).fst.branch =
      stCapture.branch :=
  ⟨rfl, rfl, (claim_C6 envAllOk true stCapture "/repo" rfl rfl).1,
   (claim_C6 envAllOk true stCapture "/repo" rfl rfl).2⟩

/-- Claim C10: with Repo absent and Branch present, clearing both returns
the not-found error of the repo clear with the state unchanged: the branch
clear is never attempted and Branch stays stored. -/
theorem claim_C10 (env : Env) (vw : Bool) (st : St) (b : String)
    (hr : st.repo = none) (hb : st.branch = some b) :
    run env ⟨true, true, vw⟩ st = (st, Outcome.ioErr "config value not found") ∧
    (run env ⟨true, true, vw⟩ st).fst.branch = some b := by
  refine ⟨?_, ?_⟩ <;> simp [run, clear_repo, config_read, hr, hb]

/-- Witness for C10. -/
theorem claim_C10_witness :
    ({ repo := none, branch := some "main", inputs := [], reads := 0,
       git := none, trace := [] } : St).repo = none ∧
    ({ repo := none, branch := some "main", inputs := [], reads := 0,
       git := none, trace := [] } : St).branch = some "main" ∧
    run envAllOk ⟨true, true, false⟩
      { repo := none, branch := some "main", inputs := [], reads := 0,
        git := none, trace := [] } =
      ({ repo := none, branch := some "main", inputs := [], reads := 0,
         git := none, trace := [] }, Outcome.ioErr "config value not found") ∧
    (run envAllOk ⟨true, true, false⟩
      { repo := none, branch := some "main", inputs := [], reads := 0,
        git := none, trace := [] }).fst.branch = some "main" :=
  ⟨rfl, rfl, (claim_C10 envAllOk false _ "main" rfl rfl).1,
   (claim_C10 envAllOk false _ "main" rfl rfl).2⟩

/-- The repo-path prompt loop, fed n empty lines and then a non-empty one,
performs n + 1 reads and yields that line with the remaining inputs. -/
theorem repo_prompt_loop_replicate (n : Nat) (v : String) (rest : List String)
    (hv : v ≠ "") :
    (repo_prompt_loop (List.replicate n "" ++ v :: rest)).2 =
      (n + 1, some (v, rest)) := by
  induction n with
  | zero => simp [repo_prompt_loop, hv]
  | succ n ih =>
      rcases hL : repo_prompt_loop (List.replicate n "" ++ v :: rest)
        with ⟨evs, m, r⟩
      rw [hL] at ih
      simp only [Prod.mk.injEq] at ih
      simp [List.replicate_succ, repo_prompt_loop, hL, ih.1, ih.2]

/-- Claim C7: when setup asks for the repository path and the input script
is n empty lines followed by a non-empty line v, the engine performs
exactly n + 1 reads (re-prompting on every empty line, with no bound on n)
and writes v to config under Repo, consuming exactly those lines. -/
theorem claim_C7 (env : Env) (st : St) (n : Nat) (v : String)
    (rest : List String) (hv : v ≠ "")
    (hw : env.writeOk ConfigFile.Repo = true)
    (hi : st.inputs = List.replicate n "" ++ v :: rest) :
    (setup_repo_path env st).fst.reads = st.reads + (n + 1) ∧
    (setup_repo_path env st).fst.repo = some v ∧
    (setup_repo_path env st).fst.inputs = rest ∧
    (setup_repo_path env st).snd = Outcome.ok := by
  have h := repo_prompt_loop_replicate n v rest hv
  rcases hL : repo_prompt_loop (List.replicate n "" ++ v :: rest)
    with ⟨evs, m, r⟩
  rw [hL] at h
  simp only [Prod.mk.injEq] at h
  rw [h.1] at hL
  rw [h.2] at hL
  simp [setup_repo_path, hi, hL, config_write, hw, emit]

/-- Witness for C7: three empty lines then "/my/repo" gives exactly four
reads and stores "/my/repo". -/
theorem claim_C7_witness :
    ("/my/repo" : String) ≠ "" ∧
    envAllOk.writeOk ConfigFile.Repo = true ∧
    ({ repo := none, branch := none, inputs := ["", "", "", "/my/repo"],
       reads := 0, git := none, trace := [] } : St).inputs =
      List.replicate 3 "" ++ "/my/repo" :: [] ∧
    ((setup_repo_path envAllOk
      { repo := none, branch := none, inputs := ["", "", "", "/my/repo"],
        reads := 0, git := none, trace := [] }).fst.reads = 0 + (3 + 1) ∧
     (setup_repo_path envAllOk
      { repo := none, branch := none, inputs := ["", "", "", "/my/repo"],
        reads := 0, git := none, trace := [] }).fst.repo = some "/my/repo" ∧
     (setup_repo_path envAllOk
      { repo := none, branch := none, inputs := ["", "", "", "/my/repo"],
        reads := 0, git := none, trace := [] }).fst.inputs = [] ∧
     (setup_repo_path envAllOk
      { repo := none, branch := none, inputs := ["", "", "", "/my/repo"],
        reads := 0, git := none, trace := [] }).snd = Outcome.ok) :=
  ⟨by decide, rfl, rfl,
   claim_C7 envAllOk _ 3 "/my/repo" [] (by decide) rfl rfl⟩

/-- Claim C8: when setup asks for the branch name it prompts exactly once
and reads exactly once; an empty line stores exactly "master" and a
non-empty line s stores exactly s. -/
theorem claim_C8 (env : Env) (st : St) (s : String) (rest : List String)
    (hw : env.writeOk ConfigFile.Branch = true) (hi : st.inputs = s :: rest) :
    (setup_branch_name env st).fst.reads = st.reads + 1 ∧
    (setup_branch_name env st).fst.branch =
      some (if s = "" then "master" else s) ∧
    (setup_branch_name env st).fst.inputs = rest ∧
    (setup_branch_name env st).fst.trace = st.trace ++
      [Event.inputHeader "Name of branch (default: master)",
       Event.readLine s,
       Event.configWrite ConfigFile.Branch (if s = "" then "master" else s)] ∧
    (setup_branch_name env st).snd = Outcome.ok := by
  by_cases hs : s = "" <;>
    simp [setup_branch_name, read_input, hi, emit, config_write, hw, hs]

/-- Witness for C8 at the empty input line: "master" is stored after one
prompt and one read. -/
theorem claim_C8_witness :
    envAllOk.writeOk ConfigFile.Branch = true ∧
    ({ repo := some "/repo", branch := none, inputs := [""], reads := 0,
       git := none, trace := [] } : St).inputs = "" :: [] ∧
    ((setup_branch_name envAllOk
      { repo := some "/repo", branch := none, inputs := [""], reads := 0,
        git := none, trace := [] }).fst.reads = 0 + 1 ∧
     (setup_branch_name envAllOk
      { repo := some "/repo", branch := none, inputs := [""], reads := 0,
        git := none, trace := [] }).fst.branch =
       some (if ("" : String) = "" then "master" else "") ∧
     (setup_branch_name envAllOk
      { repo := some "/repo", branch := none, inputs := [""], reads := 0,
        git := none, trace := [] }).fst.inputs = [] ∧
     (setup_branch_name envAllOk
      { repo := some "/repo", branch := none, inputs := [""], reads := 0,
        git := none, trace := [] }).fst.trace = [] ++
       [Event.inputHeader "Name of branch (default: master)",
        Event.readLine "",
        Event.configWrite ConfigFile.Branch
          (if ("" : String) = "" then "master" else "")] ∧
     (setup_branch_name envAllOk
      { repo := some "/repo", branch := none, inputs := [""], reads := 0,
        git := none, trace := [] }).snd = Outcome.ok) :=
  ⟨rfl, rfl, claim_C8 envAllOk _ "" [] rfl rfl⟩

/-- Claim C9: with view set and no clear flag, when Repo reads as r the
pager is opened on exactly r ++ "/README.md"; on pager success the run
continues exactly as a no-flag run from the state with that pager call
recorded (view does not short-circuit), on pager failure that error
propagates as the result of run with nothing further executed, and when
the repository path is not configured the read's not-found error
propagates as the result of run with the state unchanged and no pager
opened. -/
theorem claim_C9 (env : Env) (st : St) :
    (∀ r, st.repo = some r →
      (env.pagerOk (r ++ "/README.md") = true →
        run env ⟨false, false, true⟩ st =
          run env ⟨false, false, false⟩
            (emit st (Event.openPager (r ++ "/README.md")))) ∧
      (env.pagerOk (r ++ "/README.md") = false →
        run env ⟨false, false, true⟩ st =
          (emit st (Event.openPager (r ++ "/README.md")),
           Outcome.ioErr "pager failed"))) ∧
    (st.repo = none →
      run env ⟨false, false, true⟩ st =
        (st, Outcome.ioErr "config value not found")) := by
  refine ⟨fun r hr => ⟨fun hp => ?_, fun hp => ?_⟩, fun hr => ?_⟩
  · simp [run, open_idea_file, config_read, hr, hp, emit]
  · simp [run, open_idea_file, config_read, hr, hp, emit]
  · simp [run, open_idea_file, config_read, hr]

/-- Witness for C9: at Repo = "/x" with a succeeding pager the run
continues past the pager call, and at Repo absent the not-found error is
the result of the view run. -/
theorem claim_C9_witness :
    ({ repo := some "/x", branch := some "main", inputs := [], reads := 0,
       git := none, trace := [] } : St).repo = some "/x" ∧
    envAllOk.pagerOk ("/x" ++ "/README.md") = true ∧
    run envAllOk ⟨false, false, true⟩
      { repo := some "/x", branch := some "main", inputs := [], reads := 0,
        git := none, trace := [] } =
      run envAllOk ⟨false, false, false⟩
        (emit { repo := some "/x", branch := some "main", inputs := [],
                reads := 0, git := none, trace := [] }
          (Event.openPager ("/x" ++ "/README.md"))) ∧
    ({ repo := none, branch := some "main", inputs := [], reads := 0,
       git := none, trace := [] } : St).repo = none ∧
    run envAllOk ⟨false, false, true⟩
      { repo := none, branch := some "main", inputs := [], reads := 0,
        git := none, trace := [] } =
      ({ repo := none, branch := some "main", inputs := [], reads := 0,
         git := none, trace := [] }, Outcome.ioErr "config value not found") :=
  ⟨rfl, rfl,
   ((claim_C9 envAllOk
      { repo := some "/x", branch := some "main", inputs := [], reads := 0,
        git := none, trace := [] }).1 "/x" rfl).1 rfl,
   rfl,
   (claim_C9 envAllOk
      { repo := none, branch := some "main", inputs := [], reads := 0,
        git := none, trace := [] }).2 rfl⟩

/-- Claim C2: in any idea-capture run (config complete, no flags) in which
the git commit step fails, no push is ever invoked, whatever the editor,
checkout and add steps do. -/
theorem claim_C2 (env : Env) (r b idea : String) (rest : List String)
    (k : Nat) (g : Option String) (hcm : env.commitOk = false) :
    ∀ s, Event.gitPush s ∉
      (run env ⟨false, false, false⟩
        { repo := some r, branch := some b, inputs := idea :: rest,
          reads := k, git := g, trace := [] }).fst.trace := by
  intro s
  cases he : env.editorErr (r ++ "/README.md") <;>
  cases hco : env.checkoutOk <;>
  cases had : env.addOk <;>
    simp [run, is_config_missing, config_read, ask_for_idea, read_input,
      emit, init_git, git_add_commit_push, he, hco, had, hcm]

/-- Witness for C2: commit failing in the standard capture scenario, push
never appears in the trace. -/
theorem claim_C2_witness :
    (Env.mk (fun _ => true) (fun _ => true) true true (fun _ => none)
      (fun _ => true) true true false true).commitOk = false ∧
    Event.gitPush "main" ∉
      (run (Env.mk (fun _ => true) (fun _ => true) true true (fun _ => none)
          (fun _ => true) true true false true) ⟨false, false, false⟩
        { repo := some "/repo", branch := some "main",
          inputs := "add feature" :: [], reads := 0, git := none,
          trace := [] }).fst.trace :=
  ⟨rfl, claim_C2 (Env.mk (fun _ => true) (fun _ => true) true true
      (fun _ => none) (fun _ => true) true true false true)
    "/repo" "main" "add feature" [] 0 none rfl "main"⟩

/-- Claim C3: in any idea-capture run (config complete, no flags) in which
the editor open fails with error e, the run terminates fatally with that
editor error and no git operation is ever invoked. -/
theorem claim_C3 (env : Env) (r b idea e : String) (rest : List String)
    (k : Nat) (g : Option String)
    (hed : env.editorErr (r ++ "/README.md") = some e) :
    (run env ⟨false, false, false⟩
      { repo := some r, branch := some b, inputs := idea :: rest,
        reads := k, git := g, trace := [] }).snd =
      Outcome.fatal (FatalMsg.editorFailed e) ∧
    gitOps (run env ⟨false, false, false⟩
      { repo := some r, branch := some b, inputs := idea :: rest,
        reads := k, git := g, trace := [] }).fst.trace = [] := by
  refine ⟨?_, ?_⟩ <;>
    simp [run, is_config_missing, config_read, ask_for_idea, read_input,
      emit, init_git, hed, gitOps, isGitOp]

/-- Witness for C3: a failing editor in the standard capture scenario. -/
theorem claim_C3_witness :
    (Env.mk (fun _ => true) (fun _ => true) true true (fun _ => some "boom")
      (fun _ => true) true true true true).editorErr
        ("/repo" ++ "/README.md") = some "boom" ∧
    ((run (Env.mk (fun _ => true) (fun _ => true) true true
          (fun _ => some "boom") (fun _ => true) true true true true)
        ⟨false, false, false⟩
        { repo := some "/repo", branch := some "main",
          inputs := "add feature" :: [], reads := 0, git := none,
          trace := [] }).snd = Outcome.fatal (FatalMsg.editorFailed "boom") ∧
     gitOps (run (Env.mk (fun _ => true) (fun _ => true) true true
          (fun _ => some "boom") (fun _ => true) true true true true)
        ⟨false, false, false⟩
        { repo := some "/repo", branch := some "main",
          inputs := "add feature" :: [], reads := 0, git := none,
          trace := [] }).fst.trace = []) :=
  ⟨rfl, claim_C3 (Env.mk (fun _ => true) (fun _ => true) true true
      (fun _ => some "boom") (fun _ => true) true true true true)
    "/repo" "main" "add feature" "boom" [] 0 none rfl⟩

/-- Outcomes that are none of the three config-re-read abnormal
terminations of the capture flow (the panic sites guarded by the
completeness precondition). -/
def configFatalFree (o : Outcome) : Prop :=
  o ≠ Outcome.fatal FatalMsg.repoConfigMissing ∧
  o ≠ Outcome.fatal FatalMsg.branchConfigMissing ∧
  o ≠ Outcome.fatal FatalMsg.repoUnwrapErr

theorem configFatalFree_of_not_fatal {o : Outcome}
    (h : ∀ m, o ≠ Outcome.fatal m) : configFatalFree o :=
  ⟨h _, h _, h _⟩

/-- clear_repo never terminates abnormally: its failures are propagated
I/O errors. -/
theorem clear_repo_not_fatal (env : Env) (st : St) (m : FatalMsg) :
    (clear_repo env st).snd ≠ Outcome.fatal m := by
  cases h : st.repo with
  | none => simp [clear_repo, config_read, h]
  | some r =>
      cases hrm : env.rmOk ConfigFile.Repo <;>
        simp [clear_repo, config_read, h, file_rm, hrm]

/-- clear_branch never terminates abnormally. -/
theorem clear_branch_not_fatal (env : Env) (st : St) (m : FatalMsg) :
    (clear_branch env st).snd ≠ Outcome.fatal m := by
  cases h : st.branch with
  | none => simp [clear_branch, config_read, h]
  | some b =>
      cases hrm : env.rmOk ConfigFile.Branch <;>
        simp [clear_branch, config_read, h, file_rm, hrm]

/-- open_idea_file never terminates abnormally. -/
theorem open_idea_file_not_fatal (env : Env) (st : St) (m : FatalMsg) :
    (open_idea_file env st).snd ≠ Outcome.fatal m := by
  cases h : st.repo with
  | none => simp [open_idea_file, config_read, h]
  | some r =>
      cases hp : env.pagerOk (r ++ "/README.md") <;>
        simp [open_idea_file, config_read, h, hp, emit]

/-- open_idea_file leaves the config store untouched. -/
theorem open_idea_file_preserves (env : Env) (st : St) :
    (open_idea_file env st).fst.repo = st.repo ∧
    (open_idea_file env st).fst.branch = st.branch := by
  cases h : st.repo <;> simp [open_idea_file, config_read, h, emit]

/-- With both config keys present, the capture flow can never hit the
config-re-read panic sites, whatever the editor and git steps do. -/
theorem ask_for_idea_config_fatal_free (env : Env) (st : St) (r b : String)
    (hr : st.repo = some r) (hb : st.branch = some b) :
    configFatalFree (ask_for_idea env st).snd := by
  cases hi : st.inputs with
  | nil => simp [configFatalFree, ask_for_idea, read_input, emit, hi]
  | cons idea rest =>
      cases he : env.editorErr (r ++ "/README.md") <;>
      cases hco : env.checkoutOk <;> cases had : env.addOk <;>
      cases hcm : env.commitOk <;> cases hpu : env.pushOk <;>
        simp [configFatalFree, ask_for_idea, read_input, emit, config_read,
          hr, hb, init_git, git_add_commit_push, hi, he, hco, had, hcm, hpu]

/-- A run with a clear flag set never terminates abnormally. -/
theorem run_clear_not_fatal (env : Env) (st : St) (cr cb vw : Bool)
    (hc : (cr || cb) = true) (m : FatalMsg) :
    (run env ⟨cr, cb, vw⟩ st).snd ≠ Outcome.fatal m := by
  cases cr with
  | false =>
    cases cb with
    | false => simp at hc
    | true =>
      have hnf := clear_branch_not_fatal env st m
      simp only [run]
      simp only [Bool.false_or, if_true]
      rcases h2 : clear_branch env st with ⟨st2, o2⟩
      rw [h2] at hnf
      cases o2 <;> simp_all
  | true =>
    cases cb with
    | false =>
      have hnf := clear_repo_not_fatal env st m
      simp only [run]
      simp only [Bool.true_or, if_true]
      rcases h1 : clear_repo env st with ⟨st1, o1⟩
      rw [h1] at hnf
      cases o1 <;> simp_all
    | true =>
      have hnf1 := clear_repo_not_fatal env st m
      simp only [run]
      simp only [Bool.true_or, if_true]
      rcases h1 : clear_repo env st with ⟨st1, o1⟩
      rw [h1] at hnf1
      cases o1 with
      | ok =>
          have hnf2 := clear_branch_not_fatal env st1 m
          simp only [if_true]
          rcases h2 : clear_branch env st1 with ⟨st2, o2⟩
          rw [h2] at hnf2
          cases o2 <;> simp_all
      | ioErr s => simp
      | fatal mm => simpa using hnf1
      | blocked => simp

/-- Claim C4: whenever both config keys are readable (and, the store being
engine-owned state, stay so during the run), no run can reach the
abnormal-termination branches guarding the idea-capture re-reads of the
repository path (before constructing the git session) or of the branch
name (before checkout): the outcome is never one of those three panics. -/
theorem claim_C4 (env : Env) (opts : EurekaOptions) (st : St)
    (hr : st.repo.isSome = true) (hb : st.branch.isSome = true) :
    configFatalFree (run env opts st).snd := by
  obtain ⟨rv, hrv⟩ := Option.isSome_iff_exists.mp hr
  obtain ⟨bv, hbv⟩ := Option.isSome_iff_exists.mp hb
  obtain ⟨cr, cb, vw⟩ := opts
  by_cases hc : (cr || cb) = true
  · exact configFatalFree_of_not_fatal
      (fun m => run_clear_not_fatal env st cr cb vw hc m)
  · have hcr : cr = false := by cases cr <;> simp_all
    have hcb : cb = false := by cases cb <;> simp_all
    subst hcr; subst hcb
    cases vw with
    | false =>
        simp only [run]
        simp only [Bool.or_self, if_false, Bool.false_eq_true, ite_false]
        simp [is_config_missing, config_read, hrv, hbv]
        exact ask_for_idea_config_fatal_free env st rv bv hrv hbv
    | true =>
        have hnf := open_idea_file_not_fatal env st
        have hpres := open_idea_file_preserves env st
        simp only [run]
        simp only [Bool.or_self, if_false, Bool.false_eq_true, ite_false,
          if_true]
        rcases hV : open_idea_file env st with ⟨st1, o1⟩
        simp only [hV] at hnf hpres
        cases o1 with
        | ok =>
            have h1 : st1.repo = some rv := by rw [← hrv]; exact hpres.1
            have h2 : st1.branch = some bv := by rw [← hbv]; exact hpres.2
            simp [is_config_missing, config_read, h1, h2]
            exact ask_for_idea_config_fatal_free env st1 rv bv h1 h2
        | ioErr s => simp [configFatalFree]
        | fatal mm => exact absurd rfl (hnf mm)
        | blocked => simp [configFatalFree]

/-- Witness for C4 on the standard capture scenario. -/
theorem claim_C4_witness :
    stCapture.repo.isSome = true ∧ stCapture.branch.isSome = true ∧
    configFatalFree (run envAllOk ⟨false, false, false⟩ stCapture).snd :=
  ⟨rfl, rfl, claim_C4 envAllOk ⟨false, false, false⟩ stCapture rfl rfl⟩
